/-
Verification of the schema-aware query refinement engine of
kyongs/text-to-sql-analysis against its specification.

Each section embeds one component of the repository as executable Lean
definitions translated from the Python source, and proves the claimed
properties about them.
-/
import Mathlib

/-! ## Cardinality inspector (src/agent/join_inspector.py) -/

namespace JoinInspector

/-- A database row, modelled as an association list from column name to a
rendered value (`cursor(dictionary=True)` rows). -/
abbrev Row := List (String × String)

/-- Cardinality classification, mirroring `JoinInspector.inspect_join`
step 5 (src/agent/join_inspector.py lines 215-226):
`is_table1_unique = (distinct_key1 == table1_count)`,
`is_table2_unique = (distinct_key2 == table2_count)`, then the
four-way if/elif chain. -/
def cardinalityOf (table1Count table2Count distinctKey1 distinctKey2 : Nat) : String :=
  let isTable1Unique : Bool := distinctKey1 == table1Count
  let isTable2Unique : Bool := distinctKey2 == table2Count
  if isTable1Unique && isTable2Unique then "1:1"
  else if isTable1Unique && !isTable2Unique then "1:N"
  else if !isTable1Unique && isTable2Unique then "N:1"
  else "M:N"

/-- The fan-out warning text of step 6 (line 231), with Python's
thousands separators omitted. -/
def fanOutMessage (joinCount table1Count table2Count : Nat) : String :=
  "JOIN produces " ++ Nat.repr joinCount ++ " rows from " ++ Nat.repr table1Count ++
    " and " ++ Nat.repr table2Count ++ " rows. Data multiplication detected!"

/-- The disjoint-keys warning text of step 6 (line 233). -/
def disjointMessage : String :=
  "No matching rows found! Check if the join keys have common values."

/-- Warning generation, mirroring `inspect_join` step 6
(src/agent/join_inspector.py lines 228-233).  Python compares
`join_count > max(table1_count, table2_count) * 1.5`; on integers this is
exactly `2 * join_count > 3 * max table1_count table2_count`. -/
def warningOf (table1Count table2Count distinctKey1 distinctKey2 joinCount : Nat) :
    Option String :=
  if cardinalityOf table1Count table2Count distinctKey1 distinctKey2 = "M:N" &&
      3 * max table1Count table2Count < 2 * joinCount then
    some (fanOutMessage joinCount table1Count table2Count)
  else if joinCount == 0 then
    some disjointMessage
  else
    none

/-- The mapping table of the specification: cardinality class as a pure
function of the two is-unique booleans.  (Written from the spec's words,
for comparison with `cardinalityOf` from the source.) -/
def specCardinalityTable (isUniqueA isUniqueB : Bool) : String :=
  match isUniqueA, isUniqueB with
  | true, true => "1:1"
  | true, false => "1:N"
  | false, true => "N:1"
  | false, false => "M:N"

/-- Swapping the two tables swaps `1:N` and `N:1` and fixes the rest
(spec's words, for the refinement comparison of claim C2). -/
def specSwapCardinality (c : String) : String :=
  if c = "1:N" then "N:1" else if c = "N:1" then "1:N" else c

/-- **C2.** The cardinality class computed by the join inspector is a pure
function of the two booleans `isUniqueA = (distinctA == rowsA)` and
`isUniqueB = (distinctB == rowsB)` with mapping `(true,true) → 1:1`,
`(true,false) → 1:N`, `(false,true) → N:1`, `(false,false) → M:N`;
consequently swapping the two tables swaps `1:N` and `N:1` and leaves
`1:1` and `M:N` unchanged. -/
theorem cardinality_pure_function_and_swap
    (rowsA rowsB distinctA distinctB : Nat) :
    cardinalityOf rowsA rowsB distinctA distinctB =
      specCardinalityTable (distinctA == rowsA) (distinctB == rowsB) ∧
    cardinalityOf rowsB rowsA distinctB distinctA =
      specSwapCardinality (cardinalityOf rowsA rowsB distinctA distinctB) := by
  cases h1 : (distinctA == rowsA) <;> cases h2 : (distinctB == rowsB) <;>
    simp [cardinalityOf, specCardinalityTable, specSwapCardinality, h1, h2]

/-! ### Semantics of the statistics gathered by `inspect_join`

`inspect_join` obtains `table1_count`/`table2_count` from `COUNT(*)`,
`distinct_key1`/`distinct_key2` from `COUNT(DISTINCT key)` and
`join_count` from `COUNT(*)` over the equi-join of the two tables.  We
model a table by the multiset of its join-column values (`none` = SQL
NULL, which `COUNT(DISTINCT …)` skips and which never matches in an
equi-join). -/

/-- A table, projected onto its join column. -/
abbrev TableCol := List (Option Nat)

/-- `SELECT COUNT(*) FROM t`. -/
def rowCount (t : TableCol) : Nat := t.length

/-- The non-NULL join-column values of a table. -/
def nonNullValues (t : TableCol) : List Nat := t.filterMap id

/-- `SELECT COUNT(DISTINCT key) FROM t`. -/
def distinctKeyCount (t : TableCol) : Nat := (nonNullValues t).dedup.length

/-- `SELECT COUNT(*) FROM t1 JOIN t2 ON t1.key1 = t2.key2`. -/
def joinRowCount (t1 t2 : TableCol) : Nat :=
  ((nonNullValues t1).map (fun x => (nonNullValues t2).count x)).sum

/-- The cardinality `inspect_join` reports for two concrete tables. -/
def inspectCardinality (t1 t2 : TableCol) : String :=
  cardinalityOf (rowCount t1) (rowCount t2) (distinctKeyCount t1) (distinctKeyCount t2)

/-- The warning `inspect_join` reports for two concrete tables. -/
def inspectWarning (t1 t2 : TableCol) : Option String :=
  warningOf (rowCount t1) (rowCount t2) (distinctKeyCount t1) (distinctKeyCount t2)
    (joinRowCount t1 t2)

theorem sum_map_add_nat {α : Type} (l : List α) (f g : α → Nat) :
    (l.map (fun y => f y + g y)).sum = (l.map f).sum + (l.map g).sum := by
  induction l with
  | nil => simp
  | cons b l ih => simp [ih]; omega

theorem sum_map_count_single (a : Nat) (l : List Nat) :
    (l.map (fun y => if a == y then 1 else 0)).sum = l.count a := by
  induction l with
  | nil => simp
  | cons b l ih =>
    simp only [List.map_cons, List.sum_cons, ih, List.count_cons]
    by_cases hab : a = b
    · subst hab; simp; omega
    · have h1 : (a == b) = false := by simp [hab]
      have h2 : (b == a) = false := by simp [Ne.symm hab]
      simp [h1, h2]

/-- Double counting: summing, over the elements of `l1`, their
multiplicities in `l2` equals the symmetric sum. -/
theorem sum_count_comm (l1 l2 : List Nat) :
    (l1.map (fun x => l2.count x)).sum = (l2.map (fun y => l1.count y)).sum := by
  induction l1 with
  | nil => simp
  | cons a l1 ih =>
    have hcount : (l2.map (fun y => (a :: l1).count y)).sum =
        (l2.map (fun y => l1.count y)).sum + l2.count a := by
      simp only [List.count_cons]
      rw [sum_map_add_nat, sum_map_count_single]
    simp only [List.map_cons, List.sum_cons, ih, hcount]
    omega

theorem sum_map_le_length {α : Type} (l : List α) (f : α → Nat)
    (h : ∀ x ∈ l, f x ≤ 1) : (l.map f).sum ≤ l.length := by
  induction l with
  | nil => simp
  | cons a l ih =>
    simp only [List.map_cons, List.sum_cons, List.length_cons]
    have h1 := h a (List.mem_cons_self a l)
    have h2 := ih (fun x hx => h x (List.mem_cons_of_mem a hx))
    omega

/-- If the distinct-key count equals the row count then the non-NULL
values of the table are pairwise distinct (and no row is NULL). -/
theorem nodup_of_unique (t : TableCol) (h : distinctKeyCount t = rowCount t) :
    (nonNullValues t).Nodup ∧ (nonNullValues t).length = t.length := by
  have hsub := List.dedup_sublist (nonNullValues t)
  have h1 : (nonNullValues t).dedup.length ≤ (nonNullValues t).length :=
    hsub.length_le
  have h2 : (nonNullValues t).length ≤ t.length := by
    simpa [nonNullValues] using List.length_filterMap_le id t
  have hlen : (nonNullValues t).dedup.length = (nonNullValues t).length := by
    unfold distinctKeyCount rowCount at h; omega
  have heq : (nonNullValues t).dedup = nonNullValues t := hsub.eq_of_length hlen
  refine ⟨?_, ?_⟩
  · rw [← heq]; exact List.nodup_dedup _
  · unfold distinctKeyCount rowCount at h; omega

/-- A unique key on the left side bounds the join size by the right
side's row count. -/
theorem joinRowCount_le_of_unique_left (t1 t2 : TableCol)
    (h : distinctKeyCount t1 = rowCount t1) :
    joinRowCount t1 t2 ≤ rowCount t2 := by
  obtain ⟨hnd, _⟩ := nodup_of_unique t1 h
  have hle1 : ∀ y ∈ nonNullValues t2, (nonNullValues t1).count y ≤ 1 :=
    fun y _ => List.nodup_iff_count_le_one.mp hnd y
  calc joinRowCount t1 t2
      = ((nonNullValues t2).map (fun y => (nonNullValues t1).count y)).sum :=
        sum_count_comm _ _
    _ ≤ (nonNullValues t2).length := sum_map_le_length _ _ hle1
    _ ≤ t2.length := by simpa [nonNullValues] using List.length_filterMap_le id t2

/-- A unique key on the right side bounds the join size by the left
side's row count. -/
theorem joinRowCount_le_of_unique_right (t1 t2 : TableCol)
    (h : distinctKeyCount t2 = rowCount t2) :
    joinRowCount t1 t2 ≤ rowCount t1 := by
  obtain ⟨hnd, _⟩ := nodup_of_unique t2 h
  have hle1 : ∀ x ∈ nonNullValues t1, (nonNullValues t2).count x ≤ 1 :=
    fun x _ => List.nodup_iff_count_le_one.mp hnd x
  calc joinRowCount t1 t2
      ≤ (nonNullValues t1).length := sum_map_le_length _ _ hle1
    _ ≤ t1.length := by simpa [nonNullValues] using List.length_filterMap_le id t1

theorem disjointMessage_ne_fanOutMessage (j a b : Nat) :
    disjointMessage ≠ fanOutMessage j a b := by
  intro h
  have h1 : disjointMessage.data.head? = some 'N' := rfl
  have h2 : (fanOutMessage j a b).data.head? = some 'J' := rfl
  rw [h, h2] at h1
  exact absurd h1 (by decide)

/-- **C3.** On every successfully inspected join (statistics gathered from
the actual table contents), the inspector emits the fan-out warning
exactly when `joinRowCount > 1.5 × max(rowsA, rowsB)`, and the
disjoint-keys warning when `joinRowCount == 0`; in particular the 1:N
scenario `rowsA=100, distinctA=100, rowsB=500, distinctB=10,
joinRowCount=500` produces no warning at all. -/
theorem fanout_and_disjoint_warnings (t1 t2 : TableCol) :
    (inspectWarning t1 t2 =
        some (fanOutMessage (joinRowCount t1 t2) (rowCount t1) (rowCount t2)) ↔
      3 * max (rowCount t1) (rowCount t2) < 2 * joinRowCount t1 t2) ∧
    (joinRowCount t1 t2 = 0 → inspectWarning t1 t2 = some disjointMessage) ∧
    (cardinalityOf 100 500 100 10 = "1:N" ∧ warningOf 100 500 100 10 500 = none) := by
  refine ⟨?_, ?_, by decide⟩
  · constructor
    · intro h
      unfold inspectWarning warningOf at h
      split at h
      · next hc =>
        have := (Bool.and_eq_true _ _).mp hc
        exact of_decide_eq_true this.2
      · split at h
        · next h0 =>
          exfalso
          exact disjointMessage_ne_fanOutMessage _ _ _ (Option.some.injEq _ _ ▸ h)
        · exact absurd h (by simp)
    · intro h
      unfold inspectWarning warningOf
      have hmn : cardinalityOf (rowCount t1) (rowCount t2) (distinctKeyCount t1)
          (distinctKeyCount t2) = "M:N" := by
        by_cases h1 : distinctKeyCount t1 = rowCount t1
        · exfalso
          have := joinRowCount_le_of_unique_left t1 t2 h1
          have hmax : rowCount t2 ≤ max (rowCount t1) (rowCount t2) := le_max_right _ _
          omega
        · by_cases h2 : distinctKeyCount t2 = rowCount t2
          · exfalso
            have := joinRowCount_le_of_unique_right t1 t2 h2
            have hmax : rowCount t1 ≤ max (rowCount t1) (rowCount t2) := le_max_left _ _
            omega
          · unfold cardinalityOf
            have e1 : (distinctKeyCount t1 == rowCount t1) = false := by simp [h1]
            have e2 : (distinctKeyCount t2 == rowCount t2) = false := by simp [h2]
            simp [e1, e2]
      rw [hmn]
      simp [h]
  · intro h
    unfold inspectWarning warningOf
    rw [h]
    simp

/-- Witness for C3: two one-row tables with different key values have an
empty join, and the inspector reports the disjoint-keys warning. -/
theorem fanout_and_disjoint_warnings_witness :
    inspectWarning [some 1] [some 2] = some disjointMessage :=
  (fanout_and_disjoint_warnings [some 1] [some 2]).2.1 rfl

/-! ### Error handling of `inspect_join`

The data-store calls of `inspect_join` are modelled by an environment of
fallible operations (`Except.error` = the Python call raising).  The
translation mirrors the try/except structure of
src/agent/join_inspector.py lines 104-265: errors inside an inner `try`
are matched on; errors not caught locally propagate through the body's
`Except` monad to the outer catch-all, which converts them into a
structured result.  The `finally: conn.close()` clause has no effect on
the returned value and is not modelled here. -/

/-- The structured result of `inspect_join` (dataclass
`JoinInspectionResult`). -/
structure JoinInspectionResult where
  table1_name : String
  table2_name : String
  join_key1 : String
  join_key2 : String
  cardinality : String
  table1_row_count : Nat
  table2_row_count : Nat
  join_result_count : Nat
  sample_join_results : List Row
  warning_message : Option String
deriving DecidableEq

/-- The data-store operations `inspect_join` performs; each may fail. -/
structure InspectorEnv where
  countRows : String → Except String Nat
  countDistinct : String → String → Except String Nat
  joinSample : String → String → String → String → Nat → Except String (List Row)
  joinCount : String → String → String → String → Except String Nat
  findJoinPath : String → String → Except String String

/-- `f"Column '{join_key}' does not exist in table '{table}'"`. -/
def columnErrorMessage (key table : String) : String :=
  "Column '" ++ key ++ "' does not exist in table '" ++ table ++ "'"

/-- The remediation warning built when `find_join_path` succeeds
(src/agent/join_inspector.py lines 158-164). -/
def remediationMessage (errorMessage correctPath : String) : String :=
  "❌ " ++ errorMessage ++ "\n\n🔍 Auto-discovered correct JOIN path:\n\n" ++
    correctPath ++ "\n\n💡 Please use the JOIN keys shown above instead."

/-- The fallback warning when `find_join_path` itself fails (line 178). -/
def pathFailureMessage (errorMessage pathError : String) : String :=
  "❌ " ++ errorMessage ++ "\n\n⚠️ Could not auto-discover correct JOIN path: " ++
    pathError.take 200

/-- The warning when the JOIN query itself fails (line 212). -/
def joinFailedMessage (e : String) : String :=
  "❌ JOIN query failed. The specified columns may not exist in the database. Error: " ++
    e.take 200

/-- The catch-all warning (line 260). -/
def catchAllMessage (e : String) : String :=
  "❌ Failed to inspect JOIN relationship. Error: " ++ e.take 300

/-- The column-mismatch path (lines 136-179): call `find_join_path` and
package its outcome as a structured `UNKNOWN` result either way. -/
def columnErrorResult (env : InspectorEnv) (table1 table2 joinKey1 joinKey2 : String)
    (table1Count table2Count : Nat) (errorMessage : String) : JoinInspectionResult :=
  match env.findJoinPath table1 table2 with
  | .ok correctPath =>
    ⟨table1, table2, joinKey1, joinKey2, "UNKNOWN", table1Count, table2Count, 0, [],
      some (remediationMessage errorMessage correctPath)⟩
  | .error pathError =>
    ⟨table1, table2, joinKey1, joinKey2, "UNKNOWN", table1Count, table2Count, 0, [],
      some (pathFailureMessage errorMessage pathError)⟩

/-- The body of the outer `try` of `inspect_join`; an `Except.error`
result models an exception reaching the outer handler. -/
def inspect_join_body (env : InspectorEnv)
    (table1 table2 joinKey1 joinKey2 : String) (limit : Nat) :
    Except String JoinInspectionResult :=
  match env.countRows table1 with
  | .error e => .error e
  | .ok table1Count =>
  match env.countRows table2 with
  | .error e => .error e
  | .ok table2Count =>
  match env.countDistinct table1 joinKey1 with
  | .error _ =>
    .ok (columnErrorResult env table1 table2 joinKey1 joinKey2 table1Count table2Count
      (columnErrorMessage joinKey1 table1))
  | .ok distinctKey1 =>
    match env.countDistinct table2 joinKey2 with
    | .error _ =>
      .ok (columnErrorResult env table1 table2 joinKey1 joinKey2 table1Count table2Count
        (columnErrorMessage joinKey2 table2))
    | .ok distinctKey2 =>
      match env.joinSample table1 table2 joinKey1 joinKey2 limit with
      | .error e =>
        .ok ⟨table1, table2, joinKey1, joinKey2, "UNKNOWN", table1Count, table2Count,
          0, [], some (joinFailedMessage e)⟩
      | .ok sampleResults =>
        match env.joinCount table1 table2 joinKey1 joinKey2 with
        | .error e =>
          .ok ⟨table1, table2, joinKey1, joinKey2, "UNKNOWN", table1Count, table2Count,
            0, [], some (joinFailedMessage e)⟩
        | .ok joinCount =>
          .ok ⟨table1, table2, joinKey1, joinKey2,
            cardinalityOf table1Count table2Count distinctKey1 distinctKey2,
            table1Count, table2Count, joinCount, sampleResults,
            warningOf table1Count table2Count distinctKey1 distinctKey2 joinCount⟩

/-- `JoinInspector.inspect_join`: the body wrapped in the outer
catch-all handler (lines 248-261). -/
def inspect_join (env : InspectorEnv)
    (table1 table2 joinKey1 joinKey2 : String) (limit : Nat := 3) :
    Except String JoinInspectionResult :=
  match inspect_join_body env table1 table2 joinKey1 joinKey2 limit with
  | .ok r => .ok r
  | .error e =>
    .ok ⟨table1, table2, joinKey1, joinKey2, "UNKNOWN", 0, 0, 0, [],
      some (catchAllMessage e)⟩

/-- **C4.** The join inspector never raises to its caller: (1) every call
returns a structured result; (2)/(3) when a specified join column does not
exist on either side (the `COUNT(DISTINCT …)` probe fails) and the Path
Finder succeeds, the discovered path is returned as a remediation inside
the structured result with cardinality `UNKNOWN`, and the lookup error is
not propagated; (4) even if the Path Finder also fails, the result is
structured with cardinality `UNKNOWN`; (5)/(6) any other data-access
failure (row-count probe, join query) yields a structured result with
cardinality `UNKNOWN` and a diagnostic string. -/
theorem inspect_join_error_policy (env : InspectorEnv)
    (t1 t2 k1 k2 : String) (limit : Nat) :
    (∃ r, inspect_join env t1 t2 k1 k2 limit = .ok r) ∧
    (∀ c1 c2 e p, env.countRows t1 = .ok c1 → env.countRows t2 = .ok c2 →
      env.countDistinct t1 k1 = .error e → env.findJoinPath t1 t2 = .ok p →
      inspect_join env t1 t2 k1 k2 limit =
        .ok ⟨t1, t2, k1, k2, "UNKNOWN", c1, c2, 0, [],
          some (remediationMessage (columnErrorMessage k1 t1) p)⟩) ∧
    (∀ c1 c2 d1 e p, env.countRows t1 = .ok c1 → env.countRows t2 = .ok c2 →
      env.countDistinct t1 k1 = .ok d1 → env.countDistinct t2 k2 = .error e →
      env.findJoinPath t1 t2 = .ok p →
      inspect_join env t1 t2 k1 k2 limit =
        .ok ⟨t1, t2, k1, k2, "UNKNOWN", c1, c2, 0, [],
          some (remediationMessage (columnErrorMessage k2 t2) p)⟩) ∧
    (∀ c1 c2 e pe, env.countRows t1 = .ok c1 → env.countRows t2 = .ok c2 →
      env.countDistinct t1 k1 = .error e → env.findJoinPath t1 t2 = .error pe →
      inspect_join env t1 t2 k1 k2 limit =
        .ok ⟨t1, t2, k1, k2, "UNKNOWN", c1, c2, 0, [],
          some (pathFailureMessage (columnErrorMessage k1 t1) pe)⟩) ∧
    (∀ e, env.countRows t1 = .error e →
      inspect_join env t1 t2 k1 k2 limit =
        .ok ⟨t1, t2, k1, k2, "UNKNOWN", 0, 0, 0, [], some (catchAllMessage e)⟩) ∧
    (∀ c1 c2 d1 d2 e, env.countRows t1 = .ok c1 → env.countRows t2 = .ok c2 →
      env.countDistinct t1 k1 = .ok d1 → env.countDistinct t2 k2 = .ok d2 →
      env.joinSample t1 t2 k1 k2 limit = .error e →
      inspect_join env t1 t2 k1 k2 limit =
        .ok ⟨t1, t2, k1, k2, "UNKNOWN", c1, c2, 0, [],
          some (joinFailedMessage e)⟩) := by
  refine ⟨?_, ?_, ?_, ?_, ?_, ?_⟩
  · cases hb : inspect_join_body env t1 t2 k1 k2 limit with
    | ok r => exact ⟨r, by simp [inspect_join, hb]⟩
    | error e =>
      exact ⟨⟨t1, t2, k1, k2, "UNKNOWN", 0, 0, 0, [], some (catchAllMessage e)⟩,
        by simp [inspect_join, hb]⟩
  · intro c1 c2 e p h1 h2 h3 h4
    simp [inspect_join, inspect_join_body, columnErrorResult, Except.bind, h1, h2, h3, h4]
  · intro c1 c2 d1 e p h1 h2 h3 h4 h5
    simp [inspect_join, inspect_join_body, columnErrorResult, Except.bind, h1, h2, h3, h4, h5]
  · intro c1 c2 e pe h1 h2 h3 h4
    simp [inspect_join, inspect_join_body, columnErrorResult, Except.bind, h1, h2, h3, h4]
  · intro e h1
    simp [inspect_join, inspect_join_body, Except.bind, h1]
  · intro c1 c2 d1 d2 e h1 h2 h3 h4 h5
    simp [inspect_join, inspect_join_body, Except.bind, h1, h2, h3, h4, h5]

/-- A concrete environment in which the specified join column is missing
but the Path Finder succeeds. -/
def badColumnEnv : InspectorEnv where
  countRows := fun t => if t = "A" then .ok 10 else .ok 20
  countDistinct := fun _ _ => .error "Unknown column 'bad1' in 'field list'"
  joinSample := fun _ _ _ _ _ => .error "unused"
  joinCount := fun _ _ _ _ => .error "unused"
  findJoinPath := fun _ _ => .ok "A.id = B.aid"

/-- Witness for C4: a concrete missing-column inspection returns the
auto-discovered path as a remediation, with cardinality `UNKNOWN`. -/
theorem inspect_join_error_policy_witness :
    inspect_join badColumnEnv "A" "B" "bad1" "k2" 3 =
      .ok ⟨"A", "B", "bad1", "k2", "UNKNOWN", 10, 20, 0, [],
        some (remediationMessage (columnErrorMessage "bad1" "A") "A.id = B.aid")⟩ :=
  (inspect_join_error_policy badColumnEnv "A" "B" "bad1" "k2" 3).2.1 10 20
    "Unknown column 'bad1' in 'field list'" "A.id = B.aid"
    rfl rfl rfl rfl

end JoinInspector

/-! ## Join path finder (src/agent/join_path_finder.py) -/

namespace JoinPathFinder

/-- The join graph of `find_join_path`, as built by `build_enhanced_graph`:
an association list from table name to its neighbour tables in insertion
order (modelling the Python `dict` of `dict`s; edge metadata is irrelevant
to path enumeration). -/
abbrev Graph := List (String × List String)

/-- `graph.get(current, {})` — the neighbours of a table. -/
def neighborsOf (g : Graph) (t : String) : List String := (g.lookup t).getD []

/-- `t in graph`. -/
def memGraph (g : Graph) (t : String) : Bool := (g.lookup t).isSome

/-- The inner `dfs` of `find_all_paths` (src/agent/join_path_finder.py
lines 184-200), translated with an explicit fuel argument (the Python
recursion is bounded by the `len(path) > max_length` prune; any fuel
of at least `max_length + 1` at the initial one-element path yields
identical results, as `mem_dfs` shows). -/
def dfs (g : Graph) (maxLength : Nat) (target : String) :
    Nat → String → List String → List String → List (List String)
  | 0, _, _, _ => []
  | fuel + 1, current, visited, path =>
    if maxLength < path.length then []
    else if current = target then [path]
    else
      ((neighborsOf g current).filter (fun nb => !(visited.contains nb))).flatMap
        (fun nb => dfs g maxLength target fuel nb (nb :: visited) (path ++ [nb]))

/-- `find_all_paths(graph, start, end, max_length)`
(src/agent/join_path_finder.py lines 169-201). -/
def find_all_paths (g : Graph) (start target : String) (maxLength : Nat := 4) :
    List (List String) :=
  if !(memGraph g start) || !(memGraph g target) then []
  else if start = target then [[start]]
  else dfs g maxLength target (maxLength + 1) start [start] [start]

/-- `Reaches g target visited current q` holds when `q` is a sequence of
tables the DFS can append after `current`: consecutive tables adjacent,
none in `visited`, ending at `target`, with `target` hit only at the very
end (the DFS stops as soon as it reaches the target). -/
inductive Reaches (g : Graph) (target : String) : List String → String → List String → Prop where
  | done (visited : List String) : Reaches g target visited target []
  | step {visited : List String} {current nb : String} {q : List String}
      (hne : current ≠ target) (hnb : nb ∈ neighborsOf g current)
      (hnv : nb ∉ visited) (hrest : Reaches g target (nb :: visited) nb q) :
      Reaches g target visited current (nb :: q)

/-- Complete characterisation of the DFS result as a set. -/
theorem mem_dfs (g : Graph) (maxLength : Nat) (target : String) :
    ∀ (fuel : Nat) (current : String) (visited path : List String) (r : List String),
      maxLength + 2 ≤ fuel + path.length →
      (r ∈ dfs g maxLength target fuel current visited path ↔
        ∃ q, r = path ++ q ∧ Reaches g target visited current q ∧
          path.length + q.length ≤ maxLength) := by
  intro fuel
  induction fuel with
  | zero =>
    intro current visited path r hfuel
    simp only [dfs, List.not_mem_nil, false_iff]
    rintro ⟨q, _, _, hlen⟩
    omega
  | succ fuel ih =>
    intro current visited path r hfuel
    show r ∈ (if maxLength < path.length then [] else _) ↔ _
    by_cases h1 : maxLength < path.length
    · rw [if_pos h1]
      simp only [List.not_mem_nil, false_iff]
      rintro ⟨q, _, _, hlen⟩
      omega
    · rw [if_neg h1]
      by_cases h2 : current = target
      · subst h2
        rw [if_pos rfl]
        simp only [List.mem_singleton]
        constructor
        · rintro rfl
          exact ⟨[], by simp, Reaches.done _, by simp; omega⟩
        · rintro ⟨q, rfl, hre, hlen⟩
          cases hre with
          | done => simp
          | step hne hnb hnv hrest => exact absurd rfl hne
      · rw [if_neg h2, List.mem_flatMap]
        constructor
        · rintro ⟨nb, hnb, hr⟩
          rw [List.mem_filter] at hnb
          obtain ⟨hnbmem, hnbvis⟩ := hnb
          have hnv : nb ∉ visited := by simpa using hnbvis
          have := (ih nb (nb :: visited) (path ++ [nb]) r (by simp; omega)).mp hr
          obtain ⟨q', rfl, hre, hlen'⟩ := this
          refine ⟨nb :: q', by simp, Reaches.step h2 hnbmem hnv hre, ?_⟩
          simp only [List.length_append, List.length_singleton] at hlen'
          simp only [List.length_cons]
          omega
        · rintro ⟨q, rfl, hre, hlen⟩
          cases hre with
          | done => exact absurd rfl h2
          | @step _ _ nb q' hne hnbm hnv hrest =>
            refine ⟨nb, ?_, ?_⟩
            · rw [List.mem_filter]
              refine ⟨hnbm, ?_⟩
              simpa using hnv
            · apply (ih nb (nb :: visited) (path ++ [nb]) _ (by simp; omega)).mpr
              refine ⟨q', by simp, hrest, ?_⟩
              simp only [List.length_append, List.length_singleton]
              simp only [List.length_cons] at hlen
              omega

/-- A DFS extension avoids the visited set and repeats no table. -/
theorem reaches_disjoint_nodup (g : Graph) (target : String)
    {visited : List String} {current : String} {q : List String}
    (h : Reaches g target visited current q) :
    (∀ x ∈ q, x ∉ visited) ∧ q.Nodup := by
  induction h with
  | done => simp
  | step hne hnb hnv hrest ih =>
    obtain ⟨hdisj, hnd⟩ := ih
    refine ⟨?_, ?_⟩
    · intro x hx
      rcases List.mem_cons.mp hx with rfl | hx'
      · exact hnv
      · intro hxv
        exact hdisj x hx' (List.mem_cons_of_mem _ hxv)
    · rw [List.nodup_cons]
      exact ⟨fun hmem => hdisj _ hmem (List.mem_cons_self _ _), hnd⟩

/-- A DFS extension ends at the target. -/
theorem reaches_getLast (g : Graph) (target : String)
    {visited : List String} {current : String} {q : List String}
    (h : Reaches g target visited current q) :
    (current :: q).getLast? = some target := by
  induction h with
  | done => rfl
  | step hne hnb hnv hrest ih => rw [List.getLast?_cons_cons]; exact ih

/-- A DFS extension follows graph edges. -/
theorem reaches_chain (g : Graph) (target : String)
    {visited : List String} {current : String} {q : List String}
    (h : Reaches g target visited current q) :
    List.Chain (fun a b => b ∈ neighborsOf g a) current q := by
  induction h with
  | done => exact List.Chain.nil
  | step hne hnb hnv hrest ih => exact List.Chain.cons hnb ih

theorem mem_of_getLast_some {α : Type} {l : List α} {a : α}
    (h : l.getLast? = some a) : a ∈ l := by
  induction l with
  | nil => simp at h
  | cons b l ih =>
    cases hl : l with
    | nil =>
      subst hl
      simp only [List.getLast?_singleton, Option.some.injEq] at h
      simp [h]
    | cons c l' =>
      subst hl
      rw [List.getLast?_cons_cons] at h
      exact List.mem_cons_of_mem _ (ih h)

/-- Conversely, every simple adjacency path ending at the target and
avoiding the visited set is a DFS extension. -/
theorem reaches_of_chain (g : Graph) (target : String) :
    ∀ (q : List String) (current : String) (visited : List String),
      List.Chain (fun a b => b ∈ neighborsOf g a) current q →
      (current :: q).getLast? = some target →
      (current :: q).Nodup →
      (∀ x ∈ q, x ∉ visited) →
      Reaches g target visited current q := by
  intro q
  induction q with
  | nil =>
    intro c v _ hlast _ _
    simp only [List.getLast?_singleton, Option.some.injEq] at hlast
    subst hlast
    exact Reaches.done v
  | cons nb q' ih =>
    intro c v hchain hlast hnd hdisj
    cases hchain with
    | cons hadj htail =>
      have hlast' : (nb :: q').getLast? = some target := by
        rw [List.getLast?_cons_cons] at hlast
        exact hlast
      have htmem : target ∈ nb :: q' := mem_of_getLast_some hlast'
      have hcnot : c ∉ nb :: q' := (List.nodup_cons.mp hnd).1
      have hcne : c ≠ target := fun hceq => hcnot (hceq ▸ htmem)
      refine Reaches.step hcne hadj (hdisj nb (List.mem_cons_self _ _)) ?_
      apply ih nb (nb :: v) htail hlast' (List.nodup_cons.mp hnd).2
      intro x hx
      have hxnb : x ≠ nb := by
        have hnb' : nb ∉ q' := (List.nodup_cons.mp (List.nodup_cons.mp hnd).2).1
        intro hxe
        exact hnb' (hxe ▸ hx)
      intro hxv
      rcases List.mem_cons.mp hxv with hxe | hxv'
      · exact hxnb hxe
      · exact hdisj x (List.mem_cons_of_mem _ hx) hxv'

/-- **C7 (amended).** `findPaths(A, A, n)` returns exactly the trivial
zero-edge path `[A]` whenever `A` occurs in the join graph; when `A`
participates in no recorded join edge (so is not a graph key), the
search returns no path at all. -/
theorem find_all_paths_self (g : Graph) (a : String) (n : Nat) :
    find_all_paths g a a n = if memGraph g a then [[a]] else [] := by
  unfold find_all_paths
  by_cases h : memGraph g a
  · simp [h]
  · simp [h]

/-- **C7 counterexample.** On a graph in which table `A` participates in
no recorded join edge, `findPaths(A, A, 4)` does not return the trivial
path, contradicting the claim's "this includes graphs in which A
participates in no recorded join edge". -/
theorem find_all_paths_self_counterexample :
    find_all_paths ([] : Graph) "A" "A" 4 = [] ∧
      find_all_paths ([] : Graph) "A" "A" 4 ≠ [["A"]] := by
  constructor
  · rfl
  · decide

/-- **C8 (amended).** For distinct tables both present in the graph,
`findPaths(start, end, maxLength)` returns exactly the simple adjacency
paths from `start` to `end` with at most `maxLength` tables — i.e. at
most `maxLength - 1` edges (the bound prunes on node count, not edge
count): every returned path is simple and within the bound, and every
such path is returned (not just the shortest). -/
theorem mem_find_all_paths (g : Graph) (start target : String) (maxLength : Nat)
    (p : List String) (hne : start ≠ target)
    (hs : memGraph g start = true) (ht : memGraph g target = true) :
    p ∈ find_all_paths g start target maxLength ↔
      ∃ q, p = start :: q ∧
        List.Chain (fun a b => b ∈ neighborsOf g a) start q ∧
        p.getLast? = some target ∧ p.Nodup ∧ p.length ≤ maxLength := by
  unfold find_all_paths
  rw [hs, ht]
  simp only [Bool.not_true, Bool.or_self, Bool.false_eq_true, if_false, if_neg hne]
  rw [mem_dfs g maxLength target (maxLength + 1) start [start] [start] p (by simp)]
  constructor
  · rintro ⟨q, rfl, hre, hlen⟩
    obtain ⟨hdisj, hnd⟩ := reaches_disjoint_nodup g target hre
    refine ⟨q, by simp, reaches_chain g target hre, ?_, ?_, ?_⟩
    · simpa using reaches_getLast g target hre
    · simp only [List.singleton_append, List.nodup_cons]
      exact ⟨fun hmem => hdisj _ hmem (List.mem_singleton.mpr rfl), hnd⟩
    · simp only [List.length_append, List.length_singleton] at hlen ⊢
      omega
  · rintro ⟨q, rfl, hchain, hlast, hnd, hlen⟩
    refine ⟨q, by simp, ?_, ?_⟩
    · apply reaches_of_chain g target q start [start] hchain hlast hnd
      intro x hx hxv
      rcases List.mem_singleton.mp hxv with rfl
      exact (List.nodup_cons.mp hnd).1 hx
    · simp only [List.length_cons] at hlen
      simp only [List.length_singleton]
      omega

/-- Witness for C8: on the two-table graph `A–B`, the direct path is
returned by the search. -/
theorem mem_find_all_paths_witness :
    ["A", "B"] ∈ find_all_paths [("A", ["B"]), ("B", ["A"])] "A" "B" 4 :=
  (mem_find_all_paths [("A", ["B"]), ("B", ["A"])] "A" "B" 4 ["A", "B"]
      (by decide) rfl rfl).mpr
    ⟨["B"], rfl, List.Chain.cons (by decide) List.Chain.nil, by decide, by decide,
      by decide⟩

/-- The five-table line graph `A–B–C–D–E` (bidirectional, as
`build_enhanced_graph` stores edges). -/
def lineGraph : Graph :=
  [("A", ["B"]), ("B", ["A", "C"]), ("C", ["B", "D"]), ("D", ["C", "E"]), ("E", ["D"])]

/-- **C8 counterexample.** `["A","B","C","D","E"]` is a simple adjacency
path from `A` to `E` traversing exactly `4 = maxHops` edges, yet
`findPaths(A, E, 4)` does not return it (the bound prunes on node count):
the claim's "returns all such simple paths" fails for paths of exactly
`maxHops` edges. -/
theorem find_all_paths_counterexample :
    (["A", "B", "C", "D", "E"].Nodup ∧
      List.Chain (fun a b => b ∈ neighborsOf lineGraph a) "A" ["B", "C", "D", "E"] ∧
      ["A", "B", "C", "D", "E"].getLast? = some "E" ∧
      ["A", "B", "C", "D", "E"].length - 1 ≤ 4) ∧
    ["A", "B", "C", "D", "E"] ∉ find_all_paths lineGraph "A" "E" 4 := by
  refine ⟨⟨by decide, ?_, by decide, by decide⟩, by decide⟩
  refine List.Chain.cons ?_ (List.Chain.cons ?_ (List.Chain.cons ?_
    (List.Chain.cons ?_ List.Chain.nil))) <;> decide

end JoinPathFinder

/-! ## Value existence resolver (src/tool_agent/column_value_lookup.py) -/

namespace ColumnValueLookup

/-- Contiguous-sublist test. -/
def isInfixOfChars (needle : List Char) : List Char → Bool
  | [] => needle.isEmpty
  | c :: cs => needle.isPrefixOf (c :: cs) || isInfixOfChars needle cs

/-- `haystack LIKE '%needle%'`, modelled as substring containment over
the characters (metacharacters and collation case-folding not modelled). -/
def pyContains (needle hay : String) : Bool := isInfixOfChars needle.data hay.data

/-- Stable-enough insertion step for `ORDER BY cnt DESC`. -/
def insertByCount (x : String × Nat) : List (String × Nat) → List (String × Nat)
  | [] => [x]
  | y :: ys => if y.2 < x.2 then x :: y :: ys else y :: insertByCount x ys

/-- `ORDER BY cnt DESC` (ties keep an arbitrary deterministic order, as
in SQL, where tie order is unspecified). -/
def sortByCountDesc : List (String × Nat) → List (String × Nat)
  | [] => []
  | x :: xs => insertByCount x (sortByCountDesc xs)

/-- `SELECT col, COUNT(*) FROM t WHERE <pred> GROUP BY col
ORDER BY cnt DESC LIMIT k`, over a column modelled as the list of its
non-NULL values. -/
def groupCountsDesc (col : List String) (pred : String → Bool) (k : Nat) :
    List (String × Nat) :=
  (sortByCountDesc (((col.filter pred).dedup).map (fun v => (v, col.count v)))).take k

/-- Splitting accumulator for `re.split(r'[,\s]+', …)`. -/
def splitSepAux (sep : Char → Bool) : List Char → List Char → List (List Char)
  | [], acc => [acc.reverse]
  | c :: cs, acc =>
    if sep c then acc.reverse :: splitSepAux sep cs []
    else splitSepAux sep cs (c :: acc)

/-- `[w.strip() for w in re.split(r'[,\s]+', search_term)
if w.strip() and len(w.strip()) >= 2]` (lines 96-97): split the term on
commas/whitespace and keep the words of length ≥ 2. -/
def splitWords (term : String) : List String :=
  ((splitSepAux (fun c => c = ',' || c.isWhitespace) term.data []).map
    (fun l => String.mk l)).filter (fun w => 2 ≤ w.length)

/-- The conjunctive all-words query of lines 102-117:
`WHERE col LIKE %w1% AND col LIKE %w2% AND … LIMIT 5`. -/
def conjunctiveMatches (col : List String) (words : List String) : List (String × Nat) :=
  groupCountsDesc col (fun v => words.all (fun w => pyContains w v)) 5

/-- The per-word queries of lines 120-132, keeping only words with at
least one match (Python only inserts a dict key `if word_rows`). -/
def perWordMatches (col : List String) (words : List String) :
    List (String × List (String × Nat)) :=
  words.filterMap (fun w =>
    let rows := groupCountsDesc col (fun v => pyContains w v) 5
    if !rows.isEmpty then some (w, rows) else none)

/-- The structured result dict of `lookup_column_values`. -/
structure LookupResult where
  success : Bool
  table : String
  column : String
  search_term : Option String
  exact_match : Option Bool
  similar_values : Option (List (String × Nat))
  word_matches : Option (List (String × List (String × Nat)))
  distinct_count : Nat
  values : List String
  sample_with_count : List (String × Nat)
  error : Option String
deriving DecidableEq

/-- The search branch of `lookup_column_values` (lines 68-132): exact
match, substring matches, then — exactly when both fail — the word
decomposition with the conjunctive entry first (it is inserted into the
dict before the per-word entries). -/
def searchResults (col : List String) (t : String) :
    Bool × List (String × Nat) × Option (List (String × List (String × Nat))) :=
  let exact := 0 < col.count t
  let similar := groupCountsDesc col (fun v => pyContains t v) 10
  let wm :=
    if !exact && similar.isEmpty then
      let words := splitWords t
      let allPart :=
        if 2 ≤ words.length then
          let allRows := conjunctiveMatches col words
          if !allRows.isEmpty then [("ALL_WORDS", allRows)] else []
        else []
      some (allPart ++ perWordMatches col words)
    else none
  (exact, similar, wm)

/-- `lookup_column_values` (src/tool_agent/column_value_lookup.py lines
15-164), over a column modelled as the list of its non-NULL values; the
data-store calls are evaluated against that list.  Python's
`if search_term:` is false for both `None` and the empty string. -/
def lookup_column_values (col : List String) (table column : String)
    (searchTerm : Option String) (limit : Nat := 20) : LookupResult :=
  let distinct_count := col.dedup.length
  let sample := groupCountsDesc col (fun _ => true) limit
  match searchTerm with
  | none =>
    ⟨true, table, column, none, none, none, none, distinct_count,
      sample.map (·.1), sample, none⟩
  | some t =>
    if t = "" then
      ⟨true, table, column, some t, none, none, none, distinct_count,
        sample.map (·.1), sample, none⟩
    else
      let r := searchResults col t
      ⟨true, table, column, some t, some r.1, some r.2.1, r.2.2, distinct_count,
        sample.map (·.1), sample, none⟩

/-- `"   → '{value}' ({count} rows)"`. -/
def suggestionLine (item : String × Nat) : String :=
  "   → '" ++ item.1 ++ "' (" ++ Nat.repr item.2 ++ " rows)"

/-- The trailing "top values" block of `format_lookup_result`
(lines 231-237). -/
def topLines (r : LookupResult) : List String :=
  ["📊 Top values in " ++ r.table ++ "." ++ r.column ++ " (Total: " ++
    Nat.repr r.distinct_count ++ " distinct):"] ++
  (r.sample_with_count.take 15).map
    (fun item => "   - '" ++ item.1 ++ "' (" ++ Nat.repr item.2 ++ " rows)") ++
  (if r.values.length < r.distinct_count then
    ["   ... and " ++ Nat.repr (r.distinct_count - r.values.length) ++ " more values"]
  else [])

/-- The search-term block of `format_lookup_result` (lines 188-229). -/
def searchLines (r : LookupResult) : List String :=
  match r.search_term with
  | none => []
  | some t =>
    if t = "" then []
    else
      (if r.exact_match.getD false then
        ["✅ FOUND: '" ++ t ++ "' exists in " ++ r.table ++ "." ++ r.column,
         "   You can use this value in your WHERE clause."]
      else
        ["❌ NOT FOUND: '" ++ t ++ "' does NOT exist in " ++ r.table ++ "." ++ r.column] ++
        (let similar := r.similar_values.getD []
         let wm := r.word_matches.getD []
         if !similar.isEmpty then
           ["", "🔍 Similar values containing '" ++ t ++ "':"] ++
           (similar.take 5).map suggestionLine ++
           ["", "💡 Did you mean one of these?"]
         else if !wm.isEmpty then
           match wm.lookup "ALL_WORDS" with
           | some allRows =>
             ["", "🔍 Possible matches (contains all words):"] ++
             (allRows.take 3).map suggestionLine ++
             ["", "💡 This might be what you're looking for. Check if the format matches (e.g., 'Last, First')."]
           | none =>
             ["", "🔍 Partial matches for individual words:"] ++
             wm.flatMap (fun wr =>
               ["   '" ++ wr.1 ++ "':"] ++
               (wr.2.take 3).map
                 (fun item => "      → '" ++ item.1 ++ "' (" ++ Nat.repr item.2 ++ " rows)")) ++
             ["", "💡 No exact match. Consider one of the above values."]
         else
           ["   ⚠️ No similar values found. Check the column name or table."])) ++ [""]

/-- `format_lookup_result` (lines 178-239), as the list of output lines
(the Python code builds exactly this list and joins it with newlines). -/
def formatLines (r : LookupResult) : List String :=
  if !r.success then
    ["❌ Error looking up " ++ r.table ++ "." ++ r.column ++ ": " ++ r.error.getD ""]
  else
    searchLines r ++ topLines r

/-- `format_lookup_result` as the final string. -/
def format_lookup_result (r : LookupResult) : String :=
  String.intercalate "\n" (formatLines r)

/-- **C9.** In the value existence resolver: (1) the word-decomposition
path is taken exactly when neither the exact-match check nor the
substring search succeeds; (2) in that case, when the term decomposes
into at least two words of length ≥ 2 and some value contains every word
as a substring, the conjunctive all-words matches are computed and stored
ahead of the per-word matches, and the formatted output presents them as
the (only, hence highest-priority) suggestion block, with the per-word
block absent. -/
theorem searchResults_fallback_iff (col : List String) (t : String) :
    (searchResults col t).2.2.isSome ↔
      ((searchResults col t).1 = false ∧ (searchResults col t).2.1 = []) := by
  unfold searchResults
  cases hex : decide (0 < col.count t) <;>
    cases hsimb : (groupCountsDesc col (fun v => pyContains t v) 10).isEmpty
  · have hne : groupCountsDesc col (fun v => pyContains t v) 10 ≠ [] := by
      intro h; rw [h] at hsimb; simp at hsimb
    simp [hex, hsimb, hne]
  · have hnil := List.isEmpty_iff.mp hsimb
    simp [hex, hsimb, hnil]
  · have hmem : t ∈ col := by
      have h1 := of_decide_eq_true hex
      by_contra hno
      have h0 : List.count t col = 0 := List.count_eq_zero.mpr hno
      omega
    simp [hex, hsimb, hmem]
  · have hmem : t ∈ col := by
      have h1 := of_decide_eq_true hex
      by_contra hno
      have h0 : List.count t col = 0 := List.count_eq_zero.mpr hno
      omega
    simp [hex, hsimb, hmem]

theorem word_decomposition_fallback (col : List String) (table column t : String)
    (ht : t ≠ "") :
    (((lookup_column_values col table column (some t) 20).word_matches).isSome ↔
      ((lookup_column_values col table column (some t) 20).exact_match = some false ∧
        (lookup_column_values col table column (some t) 20).similar_values = some [])) ∧
    (col.count t = 0 →
      groupCountsDesc col (fun v => pyContains t v) 10 = [] →
      2 ≤ (splitWords t).length →
      conjunctiveMatches col (splitWords t) ≠ [] →
      (lookup_column_values col table column (some t) 20).word_matches =
        some (("ALL_WORDS", conjunctiveMatches col (splitWords t)) ::
          perWordMatches col (splitWords t)) ∧
      formatLines (lookup_column_values col table column (some t) 20) =
        ["❌ NOT FOUND: '" ++ t ++ "' does NOT exist in " ++ table ++ "." ++ column,
         "", "🔍 Possible matches (contains all words):"] ++
        ((conjunctiveMatches col (splitWords t)).take 3).map suggestionLine ++
        ["", "💡 This might be what you're looking for. Check if the format matches (e.g., 'Last, First').",
         ""] ++
        topLines (lookup_column_values col table column (some t) 20)) := by
  constructor
  · have hbase := searchResults_fallback_iff col t
    simp only [lookup_column_values, if_neg ht]
    simpa using hbase
  · intro hcount hsim hwords hall
    have hex : decide (0 < col.count t) = false := by simp [hcount]
    have hsimb : (groupCountsDesc col (fun v => pyContains t v) 10).isEmpty = true := by
      rw [hsim]; rfl
    have hallb : (conjunctiveMatches col (splitWords t)).isEmpty = false := by
      cases hc : conjunctiveMatches col (splitWords t) with
      | nil => exact absurd hc hall
      | cons a l => rfl
    have hwm : (searchResults col t).2.2 =
        some (("ALL_WORDS", conjunctiveMatches col (splitWords t)) ::
          perWordMatches col (splitWords t)) := by
      unfold searchResults
      simp only [hex, hsimb, Bool.not_false, Bool.and_self, if_true, if_pos hwords,
        hallb, Bool.not_false]
      simp [hallb]
    have hexact : (searchResults col t).1 = false := by
      unfold searchResults
      simp [hcount]
    have hsimv : (searchResults col t).2.1 = [] := by
      unfold searchResults
      simpa using hsim
    constructor
    · simp only [lookup_column_values, if_neg ht]
      exact hwm
    · simp only [formatLines, lookup_column_values, if_neg ht, Bool.not_true,
        Bool.false_eq_true, if_false]
      congr 1
      simp only [searchLines, if_neg ht, hexact, hwm, hsimv]
      simp [List.lookup]

/-- Witness for C9: searching `'Smith John'` against a column storing
`'John Smith'` takes the fallback path and surfaces the stored value as
the conjunctive (top) suggestion. -/
theorem word_decomposition_fallback_witness :
    (lookup_column_values ["John Smith"] "T" "C" (some "Smith John") 20).word_matches =
      some (("ALL_WORDS", conjunctiveMatches ["John Smith"] (splitWords "Smith John")) ::
        perWordMatches ["John Smith"] (splitWords "Smith John")) ∧
    conjunctiveMatches ["John Smith"] (splitWords "Smith John") = [("John Smith", 1)] := by
  refine ⟨?_, by decide⟩
  exact ((word_decomposition_fallback ["John Smith"] "T" "C" "Smith John"
    (by decide)).2 (by decide) (by decide) (by decide) (by decide)).1

end ColumnValueLookup

/-! ## Execution classifier (src/model/openai_model.py `_execute_sql`,
src/agent/sql_checker.py `check_sql`) -/

namespace ExecutionClassifier

/-- A fetched row. -/
abbrev Row := List (String × String)

/-- The result dict of `OpenAIModel._execute_sql`
(src/model/openai_model.py lines 808-871). -/
structure SqlExecResult where
  success : Bool
  row_count : Nat
  error : Option String
  error_type : Option String
  results : List Row
deriving DecidableEq

/-- The data-store operations the classifier performs: acquiring a
connection and executing one statement (`Except.error` = the call
raising `mysql.connector.Error`). -/
structure ExecEnv where
  connect : Except String Unit
  execute : String → Except String (List Row)

/-- The observable behaviour of one classifier call: its structured
result, the statements it sent to the data store, and the connection
lifecycle (acquired / explicitly closed before returning). -/
structure ExecTrace where
  result : SqlExecResult
  executedStatements : List String
  connectionAcquired : Bool
  connectionClosed : Bool
deriving DecidableEq

/-- `f"SET SESSION MAX_EXECUTION_TIME = {timeout_ms}"` (line 840). -/
def timeoutStatement (timeoutMs : Nat) : String :=
  "SET SESSION MAX_EXECUTION_TIME = " ++ Nat.repr timeoutMs

/-- Error classification of lines 857-869: timeout when the lowered
message mentions `max_execution_time` or `interrupted`, else
`syntax_error`. -/
def errorTypeOf (e : String) : String :=
  let lower := e.data.map Char.toLower
  if ColumnValueLookup.isInfixOfChars "max_execution_time".data lower ||
      ColumnValueLookup.isInfixOfChars "interrupted".data lower
  then "timeout" else "syntax_error"

/-- `OpenAIModel._execute_sql` (lines 808-871).  The Python code closes
the cursor and connection only on the success path (lines 854-855); the
`except` branches return without closing, and there is no `finally`. -/
def execute_sql (env : ExecEnv) (sql : String) (timeoutMs : Nat := 30000) : ExecTrace :=
  match env.connect with
  | .error e =>
    ⟨⟨false, 0, some e, some (errorTypeOf e), []⟩, [], false, false⟩
  | .ok _ =>
    match env.execute (timeoutStatement timeoutMs) with
    | .error e =>
      ⟨⟨false, 0, some e, some (errorTypeOf e), []⟩,
        [timeoutStatement timeoutMs], true, false⟩
    | .ok _ =>
      match env.execute sql with
      | .error e =>
        ⟨⟨false, 0, some e, some (errorTypeOf e), []⟩,
          [timeoutStatement timeoutMs, sql], true, false⟩
      | .ok rows =>
        ⟨⟨true, rows.length, none,
            if rows.length == 0 then some "empty_result" else none, rows.take 5⟩,
          [timeoutStatement timeoutMs, sql], true, true⟩

/-- The observable behaviour of one `check_sql` call. -/
structure CheckTrace where
  message : String
  executedStatements : List String
  connectionAcquired : Bool
  connectionClosed : Bool
deriving DecidableEq

/-- `check_sql` (src/agent/sql_checker.py lines 11-146), with the long
natural-language guidance texts abridged to their head lines (only the
branch structure matters for the claims).  As in the source, the
connection is closed only on the success path (lines 42-43); both
`except` branches return an error message without closing. -/
def check_sql (env : ExecEnv) (sql : String) (limit : Nat := 5) : CheckTrace :=
  match env.connect with
  | .error e => ⟨"❌ SQL Execution Error: " ++ e, [], false, false⟩
  | .ok _ =>
    match env.execute sql with
    | .error e => ⟨"❌ SQL Execution Error: " ++ e, [sql], true, false⟩
    | .ok rows =>
      let results := rows.take limit
      ⟨(if results.isEmpty then "⚠️ ZERO ROWS RETURNED - POSSIBLE ISSUE"
        else "✅ SQL Execution Successful"), [sql], true, true⟩

/-- **C5 (amended).** The execution classifier executes the candidate
query text verbatim: no capping clause is ever appended (the only other
statement sent is the session-timeout setting), and on success the
result row count is the full, uncapped number of rows the query
returned; `check_sql` likewise executes the query unchanged and merely
fetches a bounded sample from the cursor. -/
theorem executes_query_verbatim (env : ExecEnv) (sql : String) (tms : Nat)
    (rows : List Row) (hc : env.connect = .ok ())
    (ht : env.execute (timeoutStatement tms) = .ok [])
    (he : env.execute sql = .ok rows) :
    (execute_sql env sql tms).executedStatements = [timeoutStatement tms, sql] ∧
    (execute_sql env sql tms).result.row_count = rows.length ∧
    (check_sql env sql 5).executedStatements = [sql] := by
  refine ⟨?_, ?_, ?_⟩ <;> simp [execute_sql, check_sql, hc, ht, he]

/-- An environment whose data store returns 100 rows for the uncapped
query. -/
def bigResultEnv : ExecEnv where
  connect := .ok ()
  execute := fun s =>
    if s = timeoutStatement 30000 then .ok []
    else .ok (List.replicate 100 [("name", "x")])

/-- Witness for C5 (amended): a concrete call executes the query text
verbatim and reports all 100 rows. -/
theorem executes_query_verbatim_witness :
    (execute_sql bigResultEnv "SELECT name FROM people" 30000).executedStatements =
      [timeoutStatement 30000, "SELECT name FROM people"] ∧
    (execute_sql bigResultEnv "SELECT name FROM people" 30000).result.row_count =
      (List.replicate 100 ([("name", "x")] : Row)).length ∧
    (check_sql bigResultEnv "SELECT name FROM people" 5).executedStatements =
      ["SELECT name FROM people"] :=
  executes_query_verbatim bigResultEnv "SELECT name FROM people" 30000
    (List.replicate 100 [("name", "x")]) rfl rfl rfl

/-- **C5 counterexample.** A query with no result-row capping clause is
executed exactly as given — no capping clause is appended before
execution — and the classifier reports 100 result rows, unbounded by any
cap. -/
theorem no_cap_counterexample :
    ColumnValueLookup.pyContains "LIMIT" "SELECT name FROM people" = false ∧
    (execute_sql bigResultEnv "SELECT name FROM people" 30000).executedStatements =
      [timeoutStatement 30000, "SELECT name FROM people"] ∧
    (execute_sql bigResultEnv "SELECT name FROM people" 30000).result.row_count = 100 := by
  refine ⟨by decide, by decide, by decide⟩

/-- An environment whose data store raises a syntax error for the query. -/
def syntaxErrorEnv : ExecEnv where
  connect := .ok ()
  execute := fun s =>
    if s = timeoutStatement 30000 then .ok []
    else .error "1146 (42S02): Table 'dw.NO_SUCH_TABLE' doesn't exist"

/-- An environment whose data store times the query out. -/
def timeoutEnv : ExecEnv where
  connect := .ok ()
  execute := fun s =>
    if s = timeoutStatement 30000 then .ok []
    else .error "3024 (HY000): Query execution was interrupted, maximum statement execution time exceeded"

/-- An environment whose query succeeds. -/
def okEnv : ExecEnv where
  connect := .ok ()
  execute := fun _ => .ok [[("c", "1")]]

/-- **C6 (code bug).** On the execution-error and timeout exits the
acquired connection is *not* released before the call returns — only the
success exit closes it — in both `_execute_sql` and `check_sql`: the
`except` branches return directly and there is no `finally`. -/
theorem connection_leak_on_error :
    ((execute_sql syntaxErrorEnv "SELECT * FROM NO_SUCH_TABLE" 30000).connectionAcquired = true ∧
     (execute_sql syntaxErrorEnv "SELECT * FROM NO_SUCH_TABLE" 30000).connectionClosed = false ∧
     (execute_sql syntaxErrorEnv "SELECT * FROM NO_SUCH_TABLE" 30000).result.error_type =
       some "syntax_error") ∧
    ((execute_sql timeoutEnv "SELECT * FROM big" 30000).connectionAcquired = true ∧
     (execute_sql timeoutEnv "SELECT * FROM big" 30000).connectionClosed = false ∧
     (execute_sql timeoutEnv "SELECT * FROM big" 30000).result.error_type =
       some "timeout") ∧
    ((check_sql syntaxErrorEnv "SELECT * FROM NO_SUCH_TABLE" 5).connectionAcquired = true ∧
     (check_sql syntaxErrorEnv "SELECT * FROM NO_SUCH_TABLE" 5).connectionClosed = false) ∧
    (execute_sql okEnv "SELECT 1" 30000).connectionClosed = true := by
  refine ⟨⟨by decide, by decide, by decide⟩, ⟨by decide, by decide, by decide⟩,
    ⟨by decide, by decide⟩, by decide⟩

end ExecutionClassifier

/-! ## Note accumulator & refinement controller
(src/note_taker/parsing_note_taker.py, src/model/openai_model.py
`generate` lines 475-577, src/main.py lines 109-126)

The note-taking refinement loop is embedded with the collaborators it
drives abstracted as oracles: `script` gives each round's execution
outcome, critique feedback and regenerated response content;
`analyze` gives, per candidate SQL, the outcome of the note taker's
`compare(parse_hints(item), parse_sql(sql))` step together with the used
columns (the regex SQL tokenizer itself is outside these claims); and
`extract` is `_extract_sql_from_response`.  The note taker's string
construction and `has_issues` check are translated exactly, since the
loop's stop decision reads them. -/

namespace RefinementLoop

/-- The result dict of `_execute_sql`, as consumed by the loop. -/
structure ExecResult where
  success : Bool
  row_count : Nat
  error : Option String
  error_type : Option String
deriving DecidableEq

/-- `sorted(...)` over strings (insertion sort; the exact order is
irrelevant to the claims, only the produced lines matter). -/
def insertString (x : String) : List String → List String
  | [] => [x]
  | y :: ys => if x ≤ y then x :: y :: ys else y :: insertString x ys

def sortStrings : List String → List String
  | [] => []
  | x :: xs => insertString x (sortStrings xs)

/-- Lexicographic insertion for `sorted(...)` over join pairs. -/
def insertPair (x : String × String) : List (String × String) → List (String × String)
  | [] => [x]
  | y :: ys =>
    if x.1 < y.1 || (x.1 = y.1 && x.2 ≤ y.2) then x :: y :: ys else y :: insertPair x ys

def sortPairs : List (String × String) → List (String × String)
  | [] => []
  | x :: xs => insertPair x (sortPairs xs)

/-- The outcome of the note taker's schema comparison for one candidate
SQL: the three missing sets of `compare` plus the used columns
(`hints_parsed['columns'] - missing_columns`), supplied by the `analyze`
oracle. -/
structure Analysis where
  missingColumns : List String
  missingJoins : List (String × String)
  missingTables : List String
  usedColumns : List String

/-- The body lines of `generate_schema_check`
(src/note_taker/parsing_note_taker.py lines 257-277). -/
def schemaCheckLines (a : Analysis) : List String :=
  ((sortStrings a.missingColumns).map
    (fun col => "  ☐ " ++ col ++ " - 누락, 확인 필요")) ++
  ((sortPairs a.missingJoins).map
    (fun p => "  ☐ JOIN " ++ p.1 ++ " = " ++ p.2 ++ " - 누락, 확인 필요")) ++
  ((sortStrings a.missingTables).map
    (fun t => "  ☐ " ++ t ++ " - 테이블 누락, 확인 필요")) ++
  ((sortStrings (a.usedColumns.take 5)).map
    (fun col => "  ☑ " ++ col ++ " - 사용됨")) ++
  (if 5 < a.usedColumns.length then
    ["  ... 외 " ++ Nat.repr (a.usedColumns.length - 5) ++ "개 사용됨"]
  else [])

/-- `"\n".join(lines)`. -/
def joinWith (sep : String) : List String → String
  | [] => ""
  | [x] => x
  | x :: xs => x ++ sep ++ joinWith sep xs

/-- `generate_schema_check` (lines 244-282).  Inside the note loop
`self.hints_parsed` is a three-key dict, hence always truthy, so the
`(no hints)` branch fires only for an empty SQL. -/
def generate_schema_check (a : Analysis) (sql : String) : String :=
  if sql = "" then "Schema: (no hints)"
  else if (schemaCheckLines a).isEmpty then "Schema: ☑ 모든 hints 항목 사용됨"
  else "Schema:\n" ++ joinWith "\n" (schemaCheckLines a)

/-- `generate_refine_feedback` (lines 284-309).  It reads the missing
`error_message` key of the `_execute_sql` result dict, so `short_error`
is always the empty string. -/
def generate_refine_feedback (er : ExecResult) : String :=
  if er.success && decide (0 < er.row_count) then
    "Refine: ✅ 실행 성공 (" ++ Nat.repr er.row_count ++ "행)"
  else if er.success && er.row_count == 0 then
    "Refine: ⚠️ empty result (0행)"
  else
    "Refine: ❌ " ++ (er.error_type.getD "") ++ " - "

/-- One entry of `iter_notes`, as appended by `add_iter_note`
(lines 311-335; the loop always passes an execution result, so
`refine_feedback` is always set). -/
structure IterNote where
  iter : Nat
  sql : String
  schema_check : String
  refine_feedback : Option String
  llm_feedback : Option String
deriving DecidableEq

/-- `add_iter_note`'s note for one round. -/
def mkNote (analyze : String → Analysis) (i : Nat) (sql : String)
    (exec : ExecResult) (llm : Option String) : IterNote :=
  ⟨i, sql, generate_schema_check (analyze sql) sql,
    some (generate_refine_feedback exec), llm⟩

/-- `ParsingNoteTaker.has_issues` (lines 513-537): looks only at the last
note; an issue is a `☐` in the schema check, or a truthy refine feedback
containing `❌` or `⚠️`. -/
def has_issues (notes : List IterNote) : Bool :=
  match notes.getLast? with
  | none => false
  | some last =>
    if ColumnValueLookup.pyContains "☐" last.schema_check then true
    else
      match last.refine_feedback with
      | some rf =>
        if rf = "" then false
        else ColumnValueLookup.pyContains "❌" rf || ColumnValueLookup.pyContains "⚠️" rf
      | none => false

/-- One refinement round's oracle data: the execution result of the
current candidate, the critique collaborator's feedback (`none` = no
issue, mirroring `_get_llm_feedback`), and the content of the regenerated
response. -/
structure Round where
  exec : ExecResult
  llm_feedback : Option String
  regen_content : String

/-- The observable outcome of the note loop: the accumulated notes (the
refinement trace), the final value of the loop's `sql` variable, and the
content of the last model response (which `generate` returns to its
caller). -/
structure LoopResult where
  notes : List IterNote
  sql : String
  content : String
deriving DecidableEq

/-- The stop test of src/model/openai_model.py line 510, evaluated on
the notes including the current round's. -/
def stopConditionB (notes' : List IterNote) (r : Round) : Bool :=
  r.exec.success && decide (0 < r.exec.row_count) && !(has_issues notes') &&
    !(r.llm_feedback.isSome)

/-- Python's `if new_sql:` on the extraction result. -/
def regenTruthy (extract : String → Option String) (content : String) : Bool :=
  match extract content with
  | some s => !(s == "")
  | none => false

/-- The note loop of `OpenAIModel.generate` (lines 480-570), one round
per call: record the note, stop on the clean-success test, stop when the
bound is reached, otherwise regenerate and continue unless the new
response has no extractable SQL.  `fuel` is initialised to `maxIter`;
the bound check `note_iter >= max_note_iterations` always fires before
fuel can run out. -/
def loopAux (analyze : String → Analysis) (extract : String → Option String)
    (script : Nat → Round) (maxIter : Nat) :
    Nat → Nat → String → String → List IterNote → LoopResult
  | _, 0, sql, content, notes => ⟨notes, sql, content⟩
  | i, fuel + 1, sql, content, notes =>
    let r := script i
    let note := mkNote analyze i sql r.exec r.llm_feedback
    let notes' := notes ++ [note]
    if stopConditionB notes' r then ⟨notes', sql, content⟩
    else if maxIter ≤ i then ⟨notes', sql, content⟩
    else
      match extract r.regen_content with
      | some s =>
        if s = "" then ⟨notes', sql, r.regen_content⟩
        else loopAux analyze extract script maxIter (i + 1) fuel s r.regen_content notes'
      | none => ⟨notes', sql, r.regen_content⟩

/-- The whole note loop, `note_iter` running from 1 to
`max_note_iterations`. -/
def runNoteLoop (analyze : String → Analysis) (extract : String → Option String)
    (script : Nat → Round) (maxIter : Nat) (sql0 content0 : String) : LoopResult :=
  loopAux analyze extract script maxIter 1 maxIter sql0 content0 []

/-- `content.strip()` over characters (`str.strip` with no argument). -/
def pyStrip (s : String) : String :=
  String.mk (((s.data.dropWhile Char.isWhitespace).reverse.dropWhile
    Char.isWhitespace).reverse)

/-- How src/main.py lines 120-126 turn the returned response content into
`predicted_sql`: strip, remove a leading ` ```sql ` and a trailing
` ``` ` fence, strip again. -/
def finalPredictedSql (content : String) : String :=
  let p := pyStrip content
  let p := if ("```sql".data.isPrefixOf p.data) then String.mk (p.data.drop 6) else p
  let p := if ("```".data.reverse.isPrefixOf p.data.reverse) then
    String.mk (p.data.take (p.data.length - 3)) else p
  pyStrip p

end RefinementLoop

namespace RefinementLoop

/-- A one-character Python `in` test is list membership. -/
theorem isInfixOfChars_singleton_iff (c : Char) (l : List Char) :
    ColumnValueLookup.isInfixOfChars [c] l = true ↔ c ∈ l := by
  induction l with
  | nil => simp [ColumnValueLookup.isInfixOfChars]
  | cons d l ih => simp [ColumnValueLookup.isInfixOfChars, List.isPrefixOf, ih]

/-- A substring whose first character is absent cannot occur. -/
theorem isInfixOfChars_cons_false (c : Char) (cs : List Char) :
    ∀ {l : List Char}, c ∉ l →
      ColumnValueLookup.isInfixOfChars (c :: cs) l = false := by
  intro l
  induction l with
  | nil => intro _; rfl
  | cons d l ih =>
    intro h
    have hcd : c ≠ d := fun he => h (he ▸ List.mem_cons_self d l)
    have hcl : c ∉ l := fun he => h (List.mem_cons_of_mem d he)
    have hbeq : (c == d) = false := by simp [hcd]
    simp [ColumnValueLookup.isInfixOfChars, List.isPrefixOf, hbeq, ih hcl]

theorem pyContains_box_iff (s : String) :
    ColumnValueLookup.pyContains "☐" s = true ↔ '☐' ∈ s.data := by
  have hd : ("☐" : String).data = ['☐'] := rfl
  unfold ColumnValueLookup.pyContains
  rw [hd]
  exact isInfixOfChars_singleton_iff _ _

theorem pyContains_cross_false {s : String} (h : '❌' ∉ s.data) :
    ColumnValueLookup.pyContains "❌" s = false := by
  have hd : ("❌" : String).data = ['❌'] := rfl
  unfold ColumnValueLookup.pyContains
  rw [hd]
  exact isInfixOfChars_cons_false _ _ h

theorem pyContains_warn_false {s : String} (h : '⚠' ∉ s.data) :
    ColumnValueLookup.pyContains "⚠️" s = false := by
  have hd : ("⚠️" : String).data = ['⚠', '️'] := rfl
  unfold ColumnValueLookup.pyContains
  rw [hd]
  exact isInfixOfChars_cons_false _ _ h

/-- Every digit character produced by `Nat.digitChar` below base 10. -/
theorem digitChar_isDigit {m : Nat} (h : m < 10) : (Nat.digitChar m).isDigit = true := by
  interval_cases m <;> decide

theorem toDigitsCore_digits :
    ∀ (fuel n : Nat) (acc : List Char), (∀ c ∈ acc, c.isDigit = true) →
      ∀ c ∈ Nat.toDigitsCore 10 fuel n acc, c.isDigit = true := by
  intro fuel
  induction fuel with
  | zero => intro n acc hacc c hc; exact hacc c hc
  | succ fuel ih =>
    intro n acc hacc c hc
    simp only [Nat.toDigitsCore] at hc
    have hacc' : ∀ x ∈ Nat.digitChar (n % 10) :: acc, x.isDigit = true := by
      intro x hx
      rcases List.mem_cons.mp hx with rfl | hx'
      · exact digitChar_isDigit (Nat.mod_lt n (by norm_num))
      · exact hacc x hx'
    by_cases h0 : n / 10 = 0
    · rw [if_pos h0] at hc
      exact hacc' c hc
    · rw [if_neg h0] at hc
      exact ih (n / 10) _ hacc' c hc

/-- Every character of `Nat.repr n` is a digit. -/
theorem repr_digits (n : Nat) : ∀ c ∈ (Nat.repr n).data, c.isDigit = true := by
  intro c hc
  have hd : (Nat.repr n).data = Nat.toDigitsCore 10 (n + 1) n [] := rfl
  rw [hd] at hc
  exact toDigitsCore_digits (n + 1) n [] (by intro x hx; cases hx) c hc

/-- A non-digit character does not occur in `s1 ++ Nat.repr n ++ s3`. -/
theorem char_not_mem_around_repr {c : Char} {s1 s3 : String} (n : Nat)
    (h1 : c ∉ s1.data) (h3 : c ∉ s3.data) (hd : c.isDigit = false) :
    c ∉ (s1 ++ Nat.repr n ++ s3).data := by
  intro hmem
  rw [String.data_append, String.data_append] at hmem
  rcases List.mem_append.mp hmem with h | h
  · rcases List.mem_append.mp h with h' | h'
    · exact h1 h'
    · have := repr_digits n c h'
      rw [hd] at this
      exact Bool.false_ne_true this
  · exact h3 h

/-- Characters occurring in a joined line occur in the join. -/
theorem mem_joinWith_of_mem {c : Char} {sep : String} :
    ∀ {ls : List String} {x : String}, x ∈ ls → c ∈ x.data →
      c ∈ (joinWith sep ls).data := by
  intro ls
  induction ls with
  | nil => intro x hx; cases hx
  | cons y ys ih =>
    intro x hx hc
    cases ys with
    | nil =>
      rcases List.mem_cons.mp hx with rfl | hx'
      · exact hc
      · cases hx'
    | cons z zs =>
      show c ∈ (y ++ sep ++ joinWith sep (z :: zs)).data
      rw [String.data_append, String.data_append]
      rcases List.mem_cons.mp hx with rfl | hx'
      · exact List.mem_append_left _ (List.mem_append_left _ hc)
      · exact List.mem_append_right _ (ih hx' hc)

/-- A character absent from the separator and from every line is absent
from the join. -/
theorem not_mem_joinWith {c : Char} {sep : String} (hsep : c ∉ sep.data) :
    ∀ {ls : List String}, (∀ x ∈ ls, c ∉ x.data) → c ∉ (joinWith sep ls).data := by
  intro ls
  induction ls with
  | nil => intro _; simp [joinWith]
  | cons y ys ih =>
    intro h
    cases ys with
    | nil => exact h y (List.mem_cons_self _ _)
    | cons z zs =>
      show c ∉ (y ++ sep ++ joinWith sep (z :: zs)).data
      rw [String.data_append, String.data_append]
      intro hmem
      rcases List.mem_append.mp hmem with hm | hm
      · rcases List.mem_append.mp hm with hm' | hm'
        · exact h y (List.mem_cons_self _ _) hm'
        · exact hsep hm'
      · exact ih (fun x hx => h x (List.mem_cons_of_mem _ hx)) hm

theorem length_insertString (x : String) (l : List String) :
    (insertString x l).length = l.length + 1 := by
  induction l with
  | nil => rfl
  | cons y ys ih =>
    by_cases h : x ≤ y <;> simp [insertString, h, ih]

theorem length_sortStrings (l : List String) : (sortStrings l).length = l.length := by
  induction l with
  | nil => rfl
  | cons x xs ih => simp [sortStrings, length_insertString, ih]

theorem length_insertPair (x : String × String) (l : List (String × String)) :
    (insertPair x l).length = l.length + 1 := by
  induction l with
  | nil => rfl
  | cons y ys ih =>
    unfold insertPair
    split
    · simp
    · simp [ih]

theorem length_sortPairs (l : List (String × String)) :
    (sortPairs l).length = l.length := by
  induction l with
  | nil => rfl
  | cons x xs ih => simp [sortPairs, length_insertPair, ih]

theorem mem_insertString {y x : String} {l : List String} :
    y ∈ insertString x l → y = x ∨ y ∈ l := by
  induction l with
  | nil => intro h; rcases List.mem_singleton.mp h with rfl; exact Or.inl rfl
  | cons z zs ih =>
    intro h
    unfold insertString at h
    by_cases hc : x ≤ z
    · rw [if_pos hc] at h
      rcases List.mem_cons.mp h with rfl | h'
      · exact Or.inl rfl
      · exact Or.inr h'
    · rw [if_neg hc] at h
      rcases List.mem_cons.mp h with rfl | h'
      · exact Or.inr (List.mem_cons_self _ _)
      · rcases ih h' with h'' | h''
        · exact Or.inl h''
        · exact Or.inr (List.mem_cons_of_mem _ h'')

theorem mem_sortStrings {y : String} {l : List String} :
    y ∈ sortStrings l → y ∈ l := by
  induction l with
  | nil => intro h; cases h
  | cons x xs ih =>
    intro h
    rcases mem_insertString h with rfl | h'
    · exact List.mem_cons_self _ _
    · exact List.mem_cons_of_mem _ (ih h')

end RefinementLoop

namespace RefinementLoop

/-- "No missing requirements": the comparison found no missing columns,
joins or tables. -/
abbrev noMissing (a : Analysis) : Prop :=
  a.missingColumns = [] ∧ a.missingJoins = [] ∧ a.missingTables = []

theorem box_mem_front (pre mid suf : String) (hpre : '☐' ∈ pre.data) :
    '☐' ∈ (pre ++ mid ++ suf).data := by
  rw [String.data_append, String.data_append]
  exact List.mem_append_left _ (List.mem_append_left _ hpre)

theorem exists_mem_map_of_ne_nil {α β : Type} (f : α → β) {l : List α}
    (h : l ≠ []) : ∃ x, x ∈ l.map f := by
  cases l with
  | nil => exact absurd rfl h
  | cons a t => exact ⟨f a, List.mem_cons_self _ _⟩

/-- Any missing item produces a `☐` line among the schema-check lines. -/
theorem exists_box_line (a : Analysis) (h : ¬ noMissing a) :
    ∃ line ∈ schemaCheckLines a, '☐' ∈ line.data := by
  unfold schemaCheckLines
  by_cases h1 : a.missingColumns = []
  · by_cases h2 : a.missingJoins = []
    · by_cases h3 : a.missingTables = []
      · exact absurd ⟨h1, h2, h3⟩ h
      · have hs : sortStrings a.missingTables ≠ [] := by
          intro he
          have := length_sortStrings a.missingTables
          rw [he] at this
          exact h3 (List.length_eq_zero.mp this.symm)
        obtain ⟨line, hline⟩ := exists_mem_map_of_ne_nil
          (fun t => "  ☐ " ++ t ++ " - 테이블 누락, 확인 필요") hs
        refine ⟨line, ?_, ?_⟩
        · exact List.mem_append_left _ (List.mem_append_left _
            (List.mem_append_right _ hline))
        · obtain ⟨t, _, rfl⟩ := List.mem_map.mp hline
          exact box_mem_front _ _ _ (by decide)
    · have hs : sortPairs a.missingJoins ≠ [] := by
        intro he
        have := length_sortPairs a.missingJoins
        rw [he] at this
        exact h2 (List.length_eq_zero.mp this.symm)
      obtain ⟨line, hline⟩ := exists_mem_map_of_ne_nil
        (fun p : String × String =>
          "  ☐ JOIN " ++ p.1 ++ " = " ++ p.2 ++ " - 누락, 확인 필요") hs
      refine ⟨line, ?_, ?_⟩
      · exact List.mem_append_left _ (List.mem_append_left _
          (List.mem_append_left _ (List.mem_append_right _ hline)))
      · obtain ⟨p, _, rfl⟩ := List.mem_map.mp hline
        exact box_mem_front _ _ _ (box_mem_front _ _ _ (by decide))
  · have hs : sortStrings a.missingColumns ≠ [] := by
      intro he
      have := length_sortStrings a.missingColumns
      rw [he] at this
      exact h1 (List.length_eq_zero.mp this.symm)
    obtain ⟨line, hline⟩ := exists_mem_map_of_ne_nil
      (fun col => "  ☐ " ++ col ++ " - 누락, 확인 필요") hs
    refine ⟨line, ?_, ?_⟩
    · exact List.mem_append_left _ (List.mem_append_left _
        (List.mem_append_left _ (List.mem_append_left _ hline)))
    · obtain ⟨col, _, rfl⟩ := List.mem_map.mp hline
      exact box_mem_front _ _ _ (by decide)

/-- Missing items make `has_issues` see a `☐` in the schema check. -/
theorem schema_box_of_missing (a : Analysis) {sql : String} (hsql : sql ≠ "")
    (h : ¬ noMissing a) :
    ColumnValueLookup.pyContains "☐" (generate_schema_check a sql) = true := by
  rw [pyContains_box_iff]
  obtain ⟨line, hmem, hbox⟩ := exists_box_line a h
  unfold generate_schema_check
  rw [if_neg hsql]
  have hne : (schemaCheckLines a).isEmpty = false := by
    cases hl : schemaCheckLines a with
    | nil => rw [hl] at hmem; cases hmem
    | cons x t => rfl
  rw [if_neg (by simp [hne])]
  rw [String.data_append]
  exact List.mem_append_right _ (mem_joinWith_of_mem hmem hbox)

/-- With nothing missing and clean used-column names, the schema check
contains no `☐`. -/
theorem schema_no_box_of_clean (a : Analysis) (sql : String)
    (hm : noMissing a) (hclean : ∀ c ∈ a.usedColumns, '☐' ∉ c.data) :
    ColumnValueLookup.pyContains "☐" (generate_schema_check a sql) = false := by
  have key : ∀ s : String, '☐' ∉ s.data →
      ColumnValueLookup.pyContains "☐" s = false := by
    intro s hns
    cases hb : ColumnValueLookup.pyContains "☐" s with
    | false => rfl
    | true => exact absurd ((pyContains_box_iff s).mp hb) hns
  unfold generate_schema_check
  by_cases hsql : sql = ""
  · rw [if_pos hsql]
    decide
  · rw [if_neg hsql]
    by_cases hemp : (schemaCheckLines a).isEmpty = true
    · rw [if_pos hemp]
      decide
    · rw [if_neg hemp]
      apply key
      rw [String.data_append]
      intro hmem
      rcases List.mem_append.mp hmem with hm' | hm'
      · exact absurd hm' (by decide)
      · refine not_mem_joinWith (by decide) ?_ hm'
        intro x hx
        unfold schemaCheckLines at hx
        rw [hm.1, hm.2.1, hm.2.2] at hx
        simp only [sortStrings, sortPairs, List.map_nil, List.nil_append] at hx
        rcases List.mem_append.mp hx with hx' | hx'
        · obtain ⟨col, hcol, rfl⟩ := List.mem_map.mp hx'
          have hcol' : col ∈ a.usedColumns :=
            List.mem_of_mem_take (mem_sortStrings hcol)
          rw [String.data_append, String.data_append]
          intro hmm
          rcases List.mem_append.mp hmm with hmm' | hmm'
          · rcases List.mem_append.mp hmm' with hmm'' | hmm''
            · exact absurd hmm'' (by decide)
            · exact hclean col hcol' hmm''
          · exact absurd hmm' (by decide)
        · by_cases hover : 5 < a.usedColumns.length
          · rw [if_pos hover] at hx'
            rcases List.mem_singleton.mp hx' with rfl
            exact char_not_mem_around_repr _ (by decide) (by decide) (by decide)
          · rw [if_neg hover] at hx'
            cases hx'

/-- A successful non-empty execution's refine feedback carries neither
`❌` nor `⚠️`. -/
theorem refine_success_no_markers (er : ExecResult) (hs : er.success = true)
    (hr : 0 < er.row_count) :
    ColumnValueLookup.pyContains "❌" (generate_refine_feedback er) = false ∧
    ColumnValueLookup.pyContains "⚠️" (generate_refine_feedback er) = false := by
  have hcond : (er.success && decide (0 < er.row_count)) = true := by
    simp [hs, hr]
  unfold generate_refine_feedback
  rw [if_pos hcond]
  constructor
  · exact pyContains_cross_false (char_not_mem_around_repr _ (by decide) (by decide)
      (by decide))
  · exact pyContains_warn_false (char_not_mem_around_repr _ (by decide) (by decide)
      (by decide))

theorem getLast?_append_singleton {α : Type} (l : List α) (a : α) :
    (l ++ [a]).getLast? = some a := by
  induction l with
  | nil => rfl
  | cons b l ih =>
    cases l with
    | nil => rfl
    | cons c t =>
      show (b :: ((c :: t) ++ [a])).getLast? = some a
      rw [List.cons_append, List.getLast?_cons_cons]
      exact ih

/-- Missing requirements force `has_issues` after recording a round. -/
theorem has_issues_append_true (notes : List IterNote) (analyze : String → Analysis)
    (i : Nat) (sql : String) (exec : ExecResult) (llm : Option String)
    (hsql : sql ≠ "") (h : ¬ noMissing (analyze sql)) :
    has_issues (notes ++ [mkNote analyze i sql exec llm]) = true := by
  unfold has_issues
  rw [getLast?_append_singleton]
  simp only [mkNote]
  rw [if_pos (schema_box_of_missing (analyze sql) hsql h)]

/-- No missing requirements, clean names and a successful non-empty
execution leave `has_issues` false after recording a round. -/
theorem has_issues_append_false (notes : List IterNote) (analyze : String → Analysis)
    (i : Nat) (sql : String) (exec : ExecResult) (llm : Option String)
    (hclean : ∀ c ∈ (analyze sql).usedColumns, '☐' ∉ c.data)
    (hm : noMissing (analyze sql)) (hs : exec.success = true)
    (hr : 0 < exec.row_count) :
    has_issues (notes ++ [mkNote analyze i sql exec llm]) = false := by
  unfold has_issues
  rw [getLast?_append_singleton]
  simp only [mkNote]
  rw [if_neg (by simp [schema_no_box_of_clean (analyze sql) sql hm hclean])]
  obtain ⟨h1, h2⟩ := refine_success_no_markers exec hs hr
  simp [h1, h2]

end RefinementLoop

namespace RefinementLoop

/-- The `analyze` oracle reports sane identifiers: no used-column name
contains the checkbox character the note taker uses as its missing-item
marker. -/
def cleanNames (analyze : String → Analysis) : Prop :=
  ∀ s : String, ∀ c ∈ (analyze s).usedColumns, '☐' ∉ c.data

/-- The claim's stop condition, at the round a note records: execution
succeeded with more than zero rows, nothing is missing relative to the
requirement set, and the critique collaborator reported no issue. -/
abbrev claimStopCond (analyze : String → Analysis) (script : Nat → Round)
    (n : IterNote) : Prop :=
  (script n.iter).exec.success = true ∧ 0 < (script n.iter).exec.row_count ∧
    noMissing (analyze n.sql) ∧ (script n.iter).llm_feedback = none

/-- The round's regenerated response has no (truthy) extractable SQL. -/
abbrev regenFalsy (extract : String → Option String) (script : Nat → Round)
    (n : IterNote) : Prop :=
  regenTruthy extract (script n.iter).regen_content = false

theorem mkNote_iter (analyze : String → Analysis) (i : Nat) (sql : String)
    (exec : ExecResult) (llm : Option String) :
    (mkNote analyze i sql exec llm).iter = i := rfl

theorem mkNote_sql (analyze : String → Analysis) (i : Nat) (sql : String)
    (exec : ExecResult) (llm : Option String) :
    (mkNote analyze i sql exec llm).sql = sql := rfl

/-- Claim stop condition forces the code's stop test to fire. -/
theorem stopCond_of_claim (analyze : String → Analysis) (script : Nat → Round)
    (notes : List IterNote) (i : Nat) (sql : String)
    (hclean : cleanNames analyze)
    (h : claimStopCond analyze script
      (mkNote analyze i sql (script i).exec (script i).llm_feedback)) :
    stopConditionB (notes ++ [mkNote analyze i sql (script i).exec
      (script i).llm_feedback]) (script i) = true := by
  obtain ⟨hsucc, hrc, hnm, hllm⟩ := h
  simp only [mkNote_iter, mkNote_sql] at hsucc hrc hnm hllm
  unfold stopConditionB
  rw [has_issues_append_false notes analyze i sql (script i).exec
    (script i).llm_feedback (hclean sql) hnm hsucc hrc]
  rw [hsucc, hllm]
  simp [hrc]

/-- The code's stop test firing implies the claim's stop condition. -/
theorem claim_of_stopCond (analyze : String → Analysis) (script : Nat → Round)
    (notes : List IterNote) (i : Nat) (sql : String) (hsql : sql ≠ "")
    (h : stopConditionB (notes ++ [mkNote analyze i sql (script i).exec
      (script i).llm_feedback]) (script i) = true) :
    claimStopCond analyze script
      (mkNote analyze i sql (script i).exec (script i).llm_feedback) := by
  unfold stopConditionB at h
  rw [Bool.and_eq_true, Bool.and_eq_true, Bool.and_eq_true] at h
  obtain ⟨⟨⟨hsucc, hrc⟩, hiss⟩, hllm⟩ := h
  unfold claimStopCond
  simp only [mkNote_iter, mkNote_sql]
  refine ⟨hsucc, of_decide_eq_true hrc, ?_, ?_⟩
  · by_contra hnm
    have := has_issues_append_true notes analyze i sql (script i).exec
      (script i).llm_feedback hsql hnm
    rw [this] at hiss
    exact absurd hiss (by decide)
  · cases hf : (script i).llm_feedback with
    | none => rfl
    | some v =>
      simp [hf] at hllm

/-- The loop invariant: starting round `i` with fuel `maxIter + 1 - i`,
the loop appends a nonempty block of notes; every appended note except
the last recorded a round that continued (its claim-level stop condition
failed), and the last appended note's round either satisfied the stop
condition, or was the final allowed round, or regenerated a response with
no extractable SQL. -/
theorem loopAux_spec (analyze : String → Analysis)
    (extract : String → Option String) (script : Nat → Round) (maxIter : Nat)
    (hclean : cleanNames analyze) :
    ∀ (fuel i : Nat) (sql content : String) (notes : List IterNote),
      1 ≤ i → i ≤ maxIter → i + fuel = maxIter + 1 → sql ≠ "" →
      ∃ extra,
        (loopAux analyze extract script maxIter i fuel sql content notes).notes =
          notes ++ extra ∧
        extra ≠ [] ∧
        (∀ n ∈ extra.dropLast, ¬ claimStopCond analyze script n) ∧
        (∀ n, extra.getLast? = some n →
          claimStopCond analyze script n ∨ n.iter = maxIter ∨
            regenFalsy extract script n) := by
  intro fuel
  induction fuel with
  | zero =>
    intro i sql content notes h1 h2 h3 _
    exfalso
    omega
  | succ fuel ih =>
    intro i sql content notes h1 h2 h3 hsql
    simp only [loopAux]
    by_cases hstop : stopConditionB
        (notes ++ [mkNote analyze i sql (script i).exec (script i).llm_feedback])
        (script i) = true
    · rw [if_pos hstop]
      refine ⟨[mkNote analyze i sql (script i).exec (script i).llm_feedback],
        rfl, by simp, by simp, ?_⟩
      intro n hn
      rw [List.getLast?_singleton, Option.some.injEq] at hn
      subst hn
      exact Or.inl (claim_of_stopCond analyze script notes i sql hsql hstop)
    · rw [if_neg hstop]
      by_cases hle : maxIter ≤ i
      · rw [if_pos hle]
        refine ⟨[mkNote analyze i sql (script i).exec (script i).llm_feedback],
          rfl, by simp, by simp, ?_⟩
        intro n hn
        rw [List.getLast?_singleton, Option.some.injEq] at hn
        subst hn
        exact Or.inr (Or.inl (by rw [mkNote_iter]; omega))
      · rw [if_neg hle]
        cases hex : extract (script i).regen_content with
        | none =>
          refine ⟨[mkNote analyze i sql (script i).exec (script i).llm_feedback],
            rfl, by simp, by simp, ?_⟩
          intro n hn
          rw [List.getLast?_singleton, Option.some.injEq] at hn
          subst hn
          refine Or.inr (Or.inr ?_)
          show regenTruthy extract (script (mkNote analyze i sql (script i).exec
            (script i).llm_feedback).iter).regen_content = false
          rw [mkNote_iter]
          unfold regenTruthy
          rw [hex]
        | some s =>
          dsimp only
          by_cases hse : s = ""
          · rw [if_pos hse]
            refine ⟨[mkNote analyze i sql (script i).exec (script i).llm_feedback],
              rfl, by simp, by simp, ?_⟩
            intro n hn
            rw [List.getLast?_singleton, Option.some.injEq] at hn
            subst hn
            refine Or.inr (Or.inr ?_)
            show regenTruthy extract (script (mkNote analyze i sql (script i).exec
              (script i).llm_feedback).iter).regen_content = false
            rw [mkNote_iter]
            unfold regenTruthy
            rw [hex]
            simp [hse]
          · rw [if_neg hse]
            obtain ⟨extra', hnotes', hne', hdrop', hlast'⟩ :=
              ih (i + 1) s (script i).regen_content
                (notes ++ [mkNote analyze i sql (script i).exec
                  (script i).llm_feedback])
                (by omega) (by omega) (by omega) hse
            refine ⟨mkNote analyze i sql (script i).exec (script i).llm_feedback ::
              extra', ?_, by simp, ?_, ?_⟩
            · rw [hnotes']
              simp
            · intro n hn
              cases hex' : extra' with
              | nil => exact absurd hex' hne'
              | cons e es =>
                rw [hex'] at hn
                rw [show (mkNote analyze i sql (script i).exec
                    (script i).llm_feedback :: e :: es).dropLast =
                    mkNote analyze i sql (script i).exec (script i).llm_feedback ::
                      (e :: es).dropLast from rfl] at hn
                rcases List.mem_cons.mp hn with rfl | hn'
                · intro hcs
                  exact hstop (stopCond_of_claim analyze script notes i sql hclean hcs)
                · exact hdrop' n (hex' ▸ hn')
            · intro n hn
              cases hex' : extra' with
              | nil => exact absurd hex' hne'
              | cons e es =>
                rw [hex'] at hn
                rw [List.getLast?_cons_cons] at hn
                exact hlast' n (hex' ▸ hn)

/-- **C1 (amended).** Under the note loop's entry conditions (at least
one allowed iteration, a nonempty initial candidate, sane column names):
every iteration except the last failed the stop condition (while
iterations remained and regeneration parsed, the loop never stopped), and
the loop stops at its last recorded iteration exactly because the stop
condition held (execution success with > 0 rows, no missing tables,
columns or joins, no critique issue), or the iteration bound was reached,
or — the early exit the original claim omits — the regenerated response
contained no extractable SQL. -/
theorem note_loop_stop_policy (analyze : String → Analysis)
    (extract : String → Option String) (script : Nat → Round) (maxIter : Nat)
    (sql0 content0 : String) (hclean : cleanNames analyze)
    (hmax : 1 ≤ maxIter) (hsql : sql0 ≠ "") :
    (runNoteLoop analyze extract script maxIter sql0 content0).notes ≠ [] ∧
    (∀ n ∈ (runNoteLoop analyze extract script maxIter sql0 content0).notes.dropLast,
      ¬ claimStopCond analyze script n) ∧
    (∀ n, (runNoteLoop analyze extract script maxIter sql0 content0).notes.getLast? =
        some n →
      claimStopCond analyze script n ∨ n.iter = maxIter ∨
        regenFalsy extract script n) := by
  obtain ⟨extra, hnotes, hne, hdrop, hlast⟩ :=
    loopAux_spec analyze extract script maxIter hclean maxIter 1 sql0 content0 []
      (le_refl 1) hmax (by omega) hsql
  unfold runNoteLoop
  simp only [hnotes, List.nil_append]
  exact ⟨hne, hdrop, hlast⟩

end RefinementLoop

namespace RefinementLoop

/-- An analysis oracle reporting nothing missing and no used columns. -/
def cleanAnalyze : String → Analysis := fun _ => ⟨[], [], [], []⟩

/-- A script whose first round succeeds cleanly. -/
def successScript : Nat → Round :=
  fun _ => ⟨⟨true, 3, none, none⟩, none, "unused"⟩

/-- A script whose rounds fail and whose regenerated responses contain no
extractable SQL. -/
def failingScript : Nat → Round :=
  fun _ => ⟨⟨false, 0, some "1064 (42000): syntax error near FROM",
    some "syntax_error"⟩, none, "I cannot fix this."⟩

/-- An extractor that always finds a fresh SQL. -/
def okExtract : String → Option String := fun _ => some "SELECT 2"

/-- An extractor that never finds SQL (`_extract_sql_from_response`
returning `None`). -/
def noneExtract : String → Option String := fun _ => none

/-- Witness for C1 (amended): a concrete clean-success run records a
nonempty trace whose single note satisfies the stop condition. -/
theorem note_loop_stop_policy_witness :
    (runNoteLoop cleanAnalyze okExtract successScript 2 "SELECT 1" "ok").notes ≠ [] :=
  (note_loop_stop_policy cleanAnalyze okExtract successScript 2 "SELECT 1" "ok"
    (fun _ c hc => nomatch hc) (by omega) (by decide)).1

/-- **C1 counterexample.** With `maxIterations = 2`, a first round whose
execution fails and whose regenerated response has no extractable SQL
stops the loop after one iteration — before exhausting the bound — even
though the claimed stop condition does not hold, contradicting "while any
of these conditions fails and iterations remain, the loop never stops". -/
theorem note_loop_stop_policy_counterexample :
    (runNoteLoop cleanAnalyze noneExtract failingScript 2 "SELECT 1" "ok").notes.length
      = 1 ∧
    (1 : Nat) < 2 ∧
    (∀ n ∈ (runNoteLoop cleanAnalyze noneExtract failingScript 2 "SELECT 1" "ok").notes,
      ¬ claimStopCond cleanAnalyze failingScript n) := by
  refine ⟨by decide, by decide, ?_⟩
  decide

/-- **C10 (amended).** If a refinement round's model response contains no
extractable SQL, the loop terminates immediately at that round: the
internal candidate variable keeps the last successfully extracted SQL,
unchanged, but the loop's returned content — from which the caller
(src/main.py lines 109-126) computes the final answer — is the new,
unparsable response, not that candidate. -/
theorem unparsable_round_keeps_candidate (analyze : String → Analysis)
    (extract : String → Option String) (script : Nat → Round)
    (maxIter i fuel : Nat) (sql content : String) (notes : List IterNote)
    (hstop : stopConditionB (notes ++ [mkNote analyze i sql (script i).exec
      (script i).llm_feedback]) (script i) = false)
    (hit : i < maxIter)
    (hreg : extract (script i).regen_content = none) :
    loopAux analyze extract script maxIter i (fuel + 1) sql content notes =
      ⟨notes ++ [mkNote analyze i sql (script i).exec (script i).llm_feedback],
        sql, (script i).regen_content⟩ := by
  simp only [loopAux]
  rw [hstop]
  rw [if_neg (by decide : ¬ false = true)]
  rw [if_neg (Nat.not_le.mpr hit)]
  rw [hreg]

/-- Witness for C10 (amended): a concrete unparsable round stops the loop
with the candidate intact and the unparsable content returned. -/
theorem unparsable_round_keeps_candidate_witness :
    loopAux cleanAnalyze noneExtract failingScript 2 1 2 "SELECT 1" "ok" [] =
      ⟨[mkNote cleanAnalyze 1 "SELECT 1" (failingScript 1).exec
          (failingScript 1).llm_feedback],
        "SELECT 1", "I cannot fix this."⟩ := by
  have h := unparsable_round_keeps_candidate cleanAnalyze noneExtract failingScript
    2 1 1 "SELECT 1" "ok" [] (by decide) (by decide) rfl
  exact h

/-- **C10 counterexample.** After an unparsable refinement round the
final answer the caller computes (strip + fence removal on the returned
content) is the unparsable text, not the last successfully extracted SQL
that the loop still holds: the claim's "the candidate carried forward as
the final answer is the last successfully extracted SQL" is false. -/
theorem final_answer_not_preserved_counterexample :
    (runNoteLoop cleanAnalyze noneExtract failingScript 2 "SELECT 1" "x").sql =
      "SELECT 1" ∧
    finalPredictedSql
      (runNoteLoop cleanAnalyze noneExtract failingScript 2 "SELECT 1" "x").content =
      "I cannot fix this." ∧
    finalPredictedSql
      (runNoteLoop cleanAnalyze noneExtract failingScript 2 "SELECT 1" "x").content ≠
      (runNoteLoop cleanAnalyze noneExtract failingScript 2 "SELECT 1" "x").sql := by
  refine ⟨by decide, by decide, by decide⟩

end RefinementLoop
